import Mathlib

/-!
Shallow embedding of `src/src/lib/physics/physics.py` (class `SpringEngine`):
a damped spring-mass oscillator with RK4 integration in a 1D and a planar
("VECTOR") mode, plus a closed-form analytical-solution classifier.

Machine floats are idealised as real numbers.  Python's failure behaviour is kept:
float division raises `ZeroDivisionError` on a zero divisor and `math.sqrt`
raises `ValueError` on a negative argument, so both are embedded as
`Option`-valued operations (`pydiv`, `pysqrt`) and every function that can
raise returns an `Option`.
-/

namespace SpringLab

noncomputable section

/-- Python float division: raises (here: `none`) on a zero divisor. -/
def pydiv (a b : ℝ) : Option ℝ := if b = 0 then none else some (a / b)

/-- Python `math.sqrt`: raises (here: `none`) on a negative argument. -/
def pysqrt (a : ℝ) : Option ℝ := if a < 0 then none else some (Real.sqrt a)

/-- Python `math.hypot(x, y)`, total. -/
def hypot (x y : ℝ) : ℝ := Real.sqrt (x ^ 2 + y ^ 2)

/-- The `SpringEngine` dataclass: parameters and state, with the source's
field defaults.  The dataclass constructor performs no validation. -/
@[ext]
structure SpringEngine where
  m : ℝ := 1
  k : ℝ := 10
  c : ℝ := 0.5
  g : ℝ := 9.81
  L0 : ℝ := 1
  mode : String := "1D"
  x : ℝ := 0.2
  y : ℝ := 0
  vx : ℝ := 0
  vy : ℝ := 0
  t : ℝ := 0

/-- The state dictionary returned by `SpringEngine.step`:
`{"x", "y", "vx", "vy", "t"}`. -/
def stateDict (e : SpringEngine) : ℝ × ℝ × ℝ × ℝ × ℝ := (e.x, e.y, e.vx, e.vy, e.t)

/-- The inner `force` closure of `_step_1d`: `(-k*x - c*v) / m`. -/
def force1d (e : SpringEngine) (x v : ℝ) : Option ℝ :=
  pydiv (-e.k * x - e.c * v) e.m

/-- Source `SpringEngine._step_1d`: one RK4 step of the 1D oscillator, mutating
`x`, `vx` and `t`. -/
def step_1d (e : SpringEngine) (dt : ℝ) : Option SpringEngine := do
  let k1_v ← force1d e e.x e.vx
  let k1_x := e.vx
  let k2_v ← force1d e (e.x + k1_x * dt / 2) (e.vx + k1_v * dt / 2)
  let k2_x := e.vx + k1_v * dt / 2
  let k3_v ← force1d e (e.x + k2_x * dt / 2) (e.vx + k2_v * dt / 2)
  let k3_x := e.vx + k2_v * dt / 2
  let k4_v ← force1d e (e.x + k3_x * dt) (e.vx + k3_v * dt)
  let k4_x := e.vx + k3_v * dt
  some { e with
    x := e.x + dt * (k1_x + 2 * k2_x + 2 * k3_x + k4_x) / 6
    vx := e.vx + dt * (k1_v + 2 * k2_v + 2 * k3_v + k4_v) / 6
    t := e.t + dt }

/-- The inner `forces` closure of `_step_2d`: accelerations `(ax, ay)` at an
evaluation point, with the degenerate-radius fallback unit vector `(0, 1)`. -/
def forces (e : SpringEngine) (x y vx vy : ℝ) : Option (ℝ × ℝ) := do
  let r := hypot x y
  let u ←
    if r < 1e-9 then
      some ((0 : ℝ), (1 : ℝ))
    else do
      let ux ← pydiv x r
      let uy ← pydiv y r
      some (ux, uy)
  let F_spring := -e.k * (r - e.L0)
  let v_radial := vx * u.1 + vy * u.2
  let F_damp := -e.c * v_radial
  let Fx := (F_spring + F_damp) * u.1
  let Fy := (F_spring + F_damp) * u.2 + e.m * e.g
  let ax ← pydiv Fx e.m
  let ay ← pydiv Fy e.m
  some (ax, ay)

/-- Source `SpringEngine._step_2d`: one RK4 step of the planar spring with gravity,
mutating `x`, `y`, `vx`, `vy` and `t`.  (The commented-out 20° angular
constraint in the source never executes and is not modelled.) -/
def step_2d (e : SpringEngine) (dt : ℝ) : Option SpringEngine := do
  let k1a ← forces e e.x e.y e.vx e.vy
  let k1_vx := e.vx
  let k1_vy := e.vy
  let k2a ← forces e (e.x + k1_vx * dt / 2) (e.y + k1_vy * dt / 2)
      (e.vx + k1a.1 * dt / 2) (e.vy + k1a.2 * dt / 2)
  let k2_vx := e.vx + k1a.1 * dt / 2
  let k2_vy := e.vy + k1a.2 * dt / 2
  let k3a ← forces e (e.x + k2_vx * dt / 2) (e.y + k2_vy * dt / 2)
      (e.vx + k2a.1 * dt / 2) (e.vy + k2a.2 * dt / 2)
  let k3_vx := e.vx + k2a.1 * dt / 2
  let k3_vy := e.vy + k2a.2 * dt / 2
  let k4a ← forces e (e.x + k3_vx * dt) (e.y + k3_vy * dt)
      (e.vx + k3a.1 * dt) (e.vy + k3a.2 * dt)
  let k4_vx := e.vx + k3a.1 * dt
  let k4_vy := e.vy + k3a.2 * dt
  some { e with
    x := e.x + dt * (k1_vx + 2 * k2_vx + 2 * k3_vx + k4_vx) / 6
    y := e.y + dt * (k1_vy + 2 * k2_vy + 2 * k3_vy + k4_vy) / 6
    vx := e.vx + dt * (k1a.1 + 2 * k2a.1 + 2 * k3a.1 + k4a.1) / 6
    vy := e.vy + dt * (k1a.2 + 2 * k2a.2 + 2 * k3a.2 + k4a.2) / 6
    t := e.t + dt }

/-- Source `SpringEngine.step`: dispatch on the mode string (`"1D"` vs anything
else) and advance one timestep. -/
def step (e : SpringEngine) (dt : ℝ) : Option SpringEngine :=
  if e.mode = "1D" then step_1d e dt else step_2d e dt

/-- Iteration: `N` successive calls to `step` with the same `dt`. -/
def stepN (e : SpringEngine) (dt : ℝ) : ℕ → Option SpringEngine
  | 0 => some e
  | n + 1 => do
    let e' ← step e dt
    stepN e' dt n

/-- The analytical-solution dictionary: one variant per damping regime,
carrying exactly the numeric fields of the corresponding Python dict. -/
inductive Desc
  | underdamped (omega_n omega_d zeta A B : ℝ)
  | critical (omega_n zeta A B : ℝ)
  | overdamped (omega_n zeta r1 r2 A B : ℝ)

/-- The `"case"` field of the returned dictionary. -/
def Desc.tag : Desc → String
  | .underdamped .. => "underdamped"
  | .critical .. => "critical"
  | .overdamped .. => "overdamped"

/-- Initial-condition extraction of `get_analytical_solution`
(`physics.py` lines 124-136): `(x0, v0)` directly in 1D mode, radial
displacement and radial velocity otherwise. -/
def initialConditions (e : SpringEngine) : Option (ℝ × ℝ) :=
  if e.mode = "1D" then
    some (e.x, e.vx)
  else do
    let r_current := hypot e.x e.y
    let v0 ←
      if r_current > 1e-9 then
        pydiv (e.vx * e.x + e.vy * e.y) r_current
      else
        some (0 : ℝ)
    some (r_current, v0)

/-- Regime classification and coefficient derivation of
`get_analytical_solution` (`physics.py` lines 138-178): underdamped is
checked first (`ζ < 1`), then the critical band (`|ζ-1| < 1e-9`), else
overdamped. -/
def regimeOf (omega_n zeta x0 v0 : ℝ) : Option Desc :=
  if zeta < 1 then do
    let sq ← pysqrt (1 - zeta ^ 2)
    let omega_d := omega_n * sq
    let B ← pydiv (v0 + zeta * omega_n * x0) omega_d
    some (.underdamped omega_n omega_d zeta x0 B)
  else if |zeta - 1| < 1e-9 then
    some (.critical omega_n zeta x0 (v0 + omega_n * x0))
  else do
    let sqrt_term ← pysqrt (zeta ^ 2 - 1)
    let r1 := -omega_n * (zeta - sqrt_term)
    let r2 := -omega_n * (zeta + sqrt_term)
    let det := r2 - r1
    let A ← pydiv (r2 * x0 - v0) det
    let B ← pydiv (v0 - r1 * x0) det
    some (.overdamped omega_n zeta r1 r2 A B)

/-- Source `SpringEngine.get_analytical_solution`: closed-form solution parameters,
classified by damping regime.  `ω_n = sqrt(k/m)`, `ζ = c/(2·sqrt(k·m))`. -/
def get_analytical_solution (e : SpringEngine) : Option Desc := do
  let q ← pydiv e.k e.m
  let omega_n ← pysqrt q
  let skm ← pysqrt (e.k * e.m)
  let zeta ← pydiv e.c (2 * skm)
  let p ← initialConditions e
  regimeOf omega_n zeta p.1 p.2

/-! ### Spec-side definitions

These follow the wording of the specification (§4.1, §4.2) and are compared
with the source-derived definitions above. -/

/-- Spec §4.1: acceleration function of the 1D mode, `a(x, v) = (-k·x - c·v)/m`. -/
def accel1d (e : SpringEngine) (x v : ℝ) : ℝ := (-e.k * x - e.c * v) / e.m

/-- Spec §4.1: one generic RK4 step of a first-order system on `ℝ × ℝ`:
`k1 = f s`, `k2 = f (s + k1·dt/2)`, `k3 = f (s + k2·dt/2)`, `k4 = f (s + k3·dt)`,
result `s + dt/6·(k1 + 2k2 + 2k3 + k4)`, componentwise. -/
def rk4step (f : ℝ × ℝ → ℝ × ℝ) (s : ℝ × ℝ) (dt : ℝ) : ℝ × ℝ :=
  let k1 := f s
  let k2 := f (s.1 + k1.1 * dt / 2, s.2 + k1.2 * dt / 2)
  let k3 := f (s.1 + k2.1 * dt / 2, s.2 + k2.2 * dt / 2)
  let k4 := f (s.1 + k3.1 * dt, s.2 + k3.2 * dt)
  (s.1 + dt / 6 * (k1.1 + 2 * k2.1 + 2 * k3.1 + k4.1),
   s.2 + dt / 6 * (k1.2 + 2 * k2.2 + 2 * k3.2 + k4.2))

/-- Spec §4.1, Vector force law: at an evaluation point, with `r = hypot x y`,
unit vector `(0,1)` when `r < 1e-9` and `(x/r, y/r)` otherwise,
`F_spring = -k·(r - L0)`, `F_damp = -c·(vx·ux + vy·uy)`,
`ax = (F_spring + F_damp)·ux/m`, `ay = ((F_spring + F_damp)·uy + m·g)/m`. -/
def specForces (e : SpringEngine) (x y vx vy : ℝ) : ℝ × ℝ :=
  let r := hypot x y
  let u : ℝ × ℝ := if r < 1e-9 then (0, 1) else (x / r, y / r)
  let F_spring := -e.k * (r - e.L0)
  let F_damp := -e.c * (vx * u.1 + vy * u.2)
  ((F_spring + F_damp) * u.1 / e.m, ((F_spring + F_damp) * u.2 + e.m * e.g) / e.m)

/-- Pure value of one `_step_1d` call (defined when `m ≠ 0`). -/
def step1dVal (e : SpringEngine) (dt : ℝ) : SpringEngine :=
  let k1_v := accel1d e e.x e.vx
  let k1_x := e.vx
  let k2_v := accel1d e (e.x + k1_x * dt / 2) (e.vx + k1_v * dt / 2)
  let k2_x := e.vx + k1_v * dt / 2
  let k3_v := accel1d e (e.x + k2_x * dt / 2) (e.vx + k2_v * dt / 2)
  let k3_x := e.vx + k2_v * dt / 2
  let k4_v := accel1d e (e.x + k3_x * dt) (e.vx + k3_v * dt)
  let k4_x := e.vx + k3_v * dt
  { e with
    x := e.x + dt * (k1_x + 2 * k2_x + 2 * k3_x + k4_x) / 6
    vx := e.vx + dt * (k1_v + 2 * k2_v + 2 * k3_v + k4_v) / 6
    t := e.t + dt }

/-- Pure value of one `_step_2d` call (defined when `m ≠ 0`). -/
def step2dVal (e : SpringEngine) (dt : ℝ) : SpringEngine :=
  let k1a := specForces e e.x e.y e.vx e.vy
  let k1_vx := e.vx
  let k1_vy := e.vy
  let k2a := specForces e (e.x + k1_vx * dt / 2) (e.y + k1_vy * dt / 2)
      (e.vx + k1a.1 * dt / 2) (e.vy + k1a.2 * dt / 2)
  let k2_vx := e.vx + k1a.1 * dt / 2
  let k2_vy := e.vy + k1a.2 * dt / 2
  let k3a := specForces e (e.x + k2_vx * dt / 2) (e.y + k2_vy * dt / 2)
      (e.vx + k2a.1 * dt / 2) (e.vy + k2a.2 * dt / 2)
  let k3_vx := e.vx + k2a.1 * dt / 2
  let k3_vy := e.vy + k2a.2 * dt / 2
  let k4a := specForces e (e.x + k3_vx * dt) (e.y + k3_vy * dt)
      (e.vx + k3a.1 * dt) (e.vy + k3a.2 * dt)
  let k4_vx := e.vx + k3a.1 * dt
  let k4_vy := e.vy + k3a.2 * dt
  { e with
    x := e.x + dt * (k1_vx + 2 * k2_vx + 2 * k3_vx + k4_vx) / 6
    y := e.y + dt * (k1_vy + 2 * k2_vy + 2 * k3_vy + k4_vy) / 6
    vx := e.vx + dt * (k1a.1 + 2 * k2a.1 + 2 * k3a.1 + k4a.1) / 6
    vy := e.vy + dt * (k1a.2 + 2 * k2a.2 + 2 * k3a.2 + k4a.2) / 6
    t := e.t + dt }

/-- Pure value of one `step` call (defined when `m ≠ 0`). -/
def stepVal (e : SpringEngine) (dt : ℝ) : SpringEngine :=
  if e.mode = "1D" then step1dVal e dt else step2dVal e dt

/-- Spec §4.2, initial-condition extraction: `(x0, v0) = (x, vx)` in 1D;
in Vector mode `x0 = hypot x y` and `v0` the radial velocity component
(`0` in the degenerate case). -/
def specInit (e : SpringEngine) : ℝ × ℝ :=
  if e.mode = "1D" then (e.x, e.vx)
  else
    let r := hypot e.x e.y
    (r, if r > 1e-9 then (e.vx * e.x + e.vy * e.y) / r else 0)

/-- Spec §4.2, regime coefficients: underdamped `ω_d = ω_n·sqrt(1-ζ²)`,
`A = x0`, `B = (v0 + ζ·ω_n·x0)/ω_d`; critical `A = x0`, `B = v0 + ω_n·x0`;
overdamped `r1 = -ω_n(ζ - sqrt(ζ²-1))`, `r2 = -ω_n(ζ + sqrt(ζ²-1))`,
`det = r2 - r1`, `A = (r2·x0 - v0)/det`, `B = (v0 - r1·x0)/det`. -/
def specRegime (omega_n zeta x0 v0 : ℝ) : Desc :=
  if zeta < 1 then
    let omega_d := omega_n * Real.sqrt (1 - zeta ^ 2)
    .underdamped omega_n omega_d zeta x0 ((v0 + zeta * omega_n * x0) / omega_d)
  else if |zeta - 1| < 1e-9 then
    .critical omega_n zeta x0 (v0 + omega_n * x0)
  else
    let st := Real.sqrt (zeta ^ 2 - 1)
    let r1 := -omega_n * (zeta - st)
    let r2 := -omega_n * (zeta + st)
    .overdamped omega_n zeta r1 r2
      ((r2 * x0 - v0) / (r2 - r1)) ((v0 - r1 * x0) / (r2 - r1))

/-- Spec §4.2: the analytical descriptor, following the specification's
formulas, from `ω_n = sqrt(k/m)` and `ζ = c/(2·sqrt(k·m))`. -/
def specAnalytical (e : SpringEngine) : Desc :=
  specRegime (Real.sqrt (e.k / e.m)) (e.c / (2 * Real.sqrt (e.k * e.m)))
    (specInit e).1 (specInit e).2

/-! ### Bridging lemmas -/

theorem pydiv_eq {b : ℝ} (hb : b ≠ 0) (a : ℝ) : pydiv a b = some (a / b) := by
  simp [pydiv, hb]

theorem pysqrt_eq {a : ℝ} (ha : 0 ≤ a) : pysqrt a = some (Real.sqrt a) := by
  simp [pysqrt, not_lt.mpr ha]

theorem hypot_nonneg (x y : ℝ) : 0 ≤ hypot x y := Real.sqrt_nonneg _

theorem forces_eq {e : SpringEngine} (hm : e.m ≠ 0) (x y vx vy : ℝ) :
    forces e x y vx vy = some (specForces e x y vx vy) := by
  unfold forces specForces
  by_cases hr : hypot x y < 1e-9
  · simp [hr, pydiv_eq hm]
  · have hr0 : hypot x y ≠ 0 := by
      have : (1e-9 : ℝ) ≤ hypot x y := not_lt.mp hr
      positivity
    simp [hr, pydiv_eq hr0, pydiv_eq hm]

theorem step_1d_eq {e : SpringEngine} (hm : e.m ≠ 0) (dt : ℝ) :
    step_1d e dt = some (step1dVal e dt) := by
  unfold step_1d step1dVal force1d accel1d
  simp [pydiv_eq hm]

theorem step_2d_eq {e : SpringEngine} (hm : e.m ≠ 0) (dt : ℝ) :
    step_2d e dt = some (step2dVal e dt) := by
  unfold step_2d step2dVal
  simp [forces_eq hm]

theorem step_eq {e : SpringEngine} (hm : e.m ≠ 0) (dt : ℝ) :
    step e dt = some (stepVal e dt) := by
  unfold step stepVal
  by_cases h : e.mode = "1D"
  · simp [h, step_1d_eq hm]
  · simp [h, step_2d_eq hm]

theorem stepVal_m (e : SpringEngine) (dt : ℝ) : (stepVal e dt).m = e.m := by
  unfold stepVal step1dVal step2dVal
  split <;> rfl

theorem stepVal_t (e : SpringEngine) (dt : ℝ) : (stepVal e dt).t = e.t + dt := by
  unfold stepVal step1dVal step2dVal
  split <;> rfl

theorem stepN_t (dt : ℝ) :
    ∀ (N : ℕ) (e : SpringEngine), 0 < e.m → ∀ s, stepN e dt N = some s →
      s.t = e.t + N * dt := by
  intro N
  induction N with
  | zero =>
    intro e _ s hs
    simp only [stepN, Option.some.injEq] at hs
    subst hs
    push_cast
    ring
  | succ n ih =>
    intro e hm s hs
    rw [stepN, step_eq hm.ne'] at hs
    simp only [Option.bind_eq_bind, Option.some_bind] at hs
    have hm2 : 0 < (stepVal e dt).m := by rw [stepVal_m]; exact hm
    have ht := ih (stepVal e dt) hm2 s hs
    rw [ht, stepVal_t]
    push_cast
    ring

theorem init_eq (e : SpringEngine) : initialConditions e = some (specInit e) := by
  unfold initialConditions specInit
  by_cases hmode : e.mode = "1D"
  · simp [hmode]
  · by_cases hr : hypot e.x e.y > 1e-9
    · have hr0 : hypot e.x e.y ≠ 0 :=
        (lt_trans (by norm_num : (0 : ℝ) < 1e-9) hr).ne'
      simp [hmode, hr, pydiv_eq hr0]
    · simp [hmode, hr]

theorem regime_eq {omega_n zeta : ℝ} (hwn : 0 < omega_n) (hz0 : 0 ≤ zeta)
    (x0 v0 : ℝ) :
    regimeOf omega_n zeta x0 v0 = some (specRegime omega_n zeta x0 v0) := by
  unfold regimeOf specRegime
  by_cases hz1 : zeta < 1
  · have h1 : (0 : ℝ) ≤ 1 - zeta ^ 2 := by nlinarith
    have h2 : 0 < Real.sqrt (1 - zeta ^ 2) := Real.sqrt_pos.mpr (by nlinarith)
    have h3 : omega_n * Real.sqrt (1 - zeta ^ 2) ≠ 0 := (mul_pos hwn h2).ne'
    simp [hz1, pysqrt_eq h1, pydiv_eq h3]
  · by_cases hzc : |zeta - 1| < 1e-9
    · simp [hz1, hzc]
    · have hz2 : 1 < zeta := by
        rcases lt_or_eq_of_le (not_lt.mp hz1) with h | h
        · exact h
        · exact absurd (by rw [← h, sub_self, abs_zero]; norm_num) hzc
      have h1 : (0 : ℝ) ≤ zeta ^ 2 - 1 := by nlinarith
      have h2 : 0 < Real.sqrt (zeta ^ 2 - 1) := Real.sqrt_pos.mpr (by nlinarith)
      have hdet : -(omega_n * (zeta + Real.sqrt (zeta ^ 2 - 1))) +
          omega_n * (zeta - Real.sqrt (zeta ^ 2 - 1)) ≠ 0 := by
        have he : -(omega_n * (zeta + Real.sqrt (zeta ^ 2 - 1))) +
            omega_n * (zeta - Real.sqrt (zeta ^ 2 - 1)) =
            -(2 * (omega_n * Real.sqrt (zeta ^ 2 - 1))) := by ring
        rw [he]
        exact neg_ne_zero.mpr (by positivity)
      simp [hz1, hzc, pysqrt_eq h1, pydiv_eq hdet]

theorem analytical_eq {e : SpringEngine} (hm : 0 < e.m) (hk : 0 < e.k)
    (hc : 0 ≤ e.c) :
    get_analytical_solution e = some (specAnalytical e) := by
  have hm0 : e.m ≠ 0 := hm.ne'
  have hq : (0 : ℝ) ≤ e.k / e.m := div_nonneg hk.le hm.le
  have hkm : (0 : ℝ) ≤ e.k * e.m := (mul_pos hk hm).le
  have hskm : 0 < Real.sqrt (e.k * e.m) := Real.sqrt_pos.mpr (mul_pos hk hm)
  have h2s : (2 * Real.sqrt (e.k * e.m)) ≠ 0 := by positivity
  have hwn : 0 < Real.sqrt (e.k / e.m) := Real.sqrt_pos.mpr (div_pos hk hm)
  have hz0 : 0 ≤ e.c / (2 * Real.sqrt (e.k * e.m)) := div_nonneg hc (by positivity)
  unfold get_analytical_solution specAnalytical
  simp only [pydiv_eq hm0, pysqrt_eq hq, pysqrt_eq hkm, pydiv_eq h2s, init_eq,
    Option.bind_eq_bind, Option.some_bind, regime_eq hwn hz0]

theorem specRegime_overdamped_roots {omega_n zeta : ℝ} (hwn : 0 < omega_n)
    (x0 v0 : ℝ) :
    ∀ wn z r1 r2 A B, specRegime omega_n zeta x0 v0 = .overdamped wn z r1 r2 A B →
      r1 ≠ r2 ∧ r1 < 0 ∧ r2 < 0 := by
  intro wn z r1 r2 A B h
  unfold specRegime at h
  by_cases hz1 : zeta < 1
  · rw [if_pos hz1] at h
    exact Desc.noConfusion h
  · rw [if_neg hz1] at h
    by_cases hzc : |zeta - 1| < 1e-9
    · rw [if_pos hzc] at h
      exact Desc.noConfusion h
    · rw [if_neg hzc] at h
      simp only [Desc.overdamped.injEq] at h
      obtain ⟨-, -, h3, h4, -, -⟩ := h
      have hz2 : 1 < zeta := by
        rcases lt_or_eq_of_le (not_lt.mp hz1) with h | h
        · exact h
        · exact absurd (by rw [← h, sub_self, abs_zero]; norm_num) hzc
      have hs0 : (0 : ℝ) ≤ zeta ^ 2 - 1 := by nlinarith
      have hst : 0 < Real.sqrt (zeta ^ 2 - 1) := Real.sqrt_pos.mpr (by nlinarith)
      have hstz : Real.sqrt (zeta ^ 2 - 1) < zeta := by
        have hlt := Real.sqrt_lt_sqrt hs0 (by nlinarith : zeta ^ 2 - 1 < zeta ^ 2)
        rwa [Real.sqrt_sq (by linarith)] at hlt
      subst h3
      subst h4
      have hp1 : 0 < omega_n * (zeta - Real.sqrt (zeta ^ 2 - 1)) :=
        mul_pos hwn (by linarith)
      have hp2 : 0 < omega_n * (zeta + Real.sqrt (zeta ^ 2 - 1)) :=
        mul_pos hwn (by linarith)
      have hps : 0 < omega_n * Real.sqrt (zeta ^ 2 - 1) := mul_pos hwn hst
      refine ⟨?_, by nlinarith, by nlinarith⟩
      intro heq
      nlinarith [heq]

theorem specRegime_tag_underdamped {wn z x0 v0 : ℝ} (hz : z < 1) :
    (specRegime wn z x0 v0).tag = "underdamped" := by
  unfold specRegime
  rw [if_pos hz]
  rfl

theorem specRegime_tag_critical {wn z x0 v0 : ℝ} (hz1 : ¬z < 1)
    (hzc : |z - 1| < 1e-9) :
    (specRegime wn z x0 v0).tag = "critical" := by
  unfold specRegime
  rw [if_neg hz1, if_pos hzc]
  rfl

theorem specRegime_tag_overdamped {wn z x0 v0 : ℝ} (hz1 : ¬z < 1)
    (hzc : ¬|z - 1| < 1e-9) :
    (specRegime wn z x0 v0).tag = "overdamped" := by
  unfold specRegime
  rw [if_neg hz1, if_neg hzc]
  rfl

theorem classify_underdamped (e : SpringEngine) (hm : 0 < e.m) (hk : 0 < e.k)
    (hc : 0 ≤ e.c) (hz : e.c / (2 * Real.sqrt (e.k * e.m)) < 1) :
    (get_analytical_solution e).map Desc.tag = some ("underdamped") := by
  rw [analytical_eq hm hk hc]
  unfold specAnalytical
  rw [Option.map_some', specRegime_tag_underdamped hz]

/-- A concrete engine with the source defaults (`m=1, k=10, c=0.5, g=9.81,
L0=1, mode="1D", x=0.2, y=0, vx=0, vy=0, t=0`). -/
def Edef : SpringEngine := {}

/-! ### Claims -/

/-- C3 (code bug): the `SpringEngine` dataclass performs no parameter
validation: constructing an engine with mass `-1 ≤ 0` succeeds and stores
the invalid mass, instead of signaling an InvalidParameter error. -/
theorem mk_no_validation :
    ((-1 : ℝ) ≤ 0) ∧
      (SpringEngine.mk (-1) 10 0.5 9.81 1 "1D" 0.2 0 0 0 0).m = -1 :=
  ⟨by norm_num, rfl⟩

/-- C4: for `m ≠ 0` (in particular `m > 0`), `_step_1d` computes exactly one
generic RK4 step of the coupled first-order system `(x, v)` with derivative
`f (x, v) = (v, a x v)`, `a(x,v) = (-k·x - c·v)/m` — position stages use the
carried velocity values, velocity stages the acceleration values — and
advances `t` by `dt`. -/
theorem step_1d_is_rk4 (e : SpringEngine) (dt : ℝ) (hm : 0 < e.m) :
    step_1d e dt =
      some { e with
        x := (rk4step (fun s => (s.2, accel1d e s.1 s.2)) (e.x, e.vx) dt).1
        vx := (rk4step (fun s => (s.2, accel1d e s.1 s.2)) (e.x, e.vx) dt).2
        t := e.t + dt } := by
  rw [step_1d_eq hm.ne']
  refine congrArg some ?_
  ext <;> simp only [step1dVal, rk4step] <;> first | rfl | ring

theorem step_1d_is_rk4_witness :
    (0 : ℝ) < Edef.m ∧
      step_1d Edef (1 / 120) =
        some { Edef with
          x := (rk4step (fun s => (s.2, accel1d Edef s.1 s.2))
                  (Edef.x, Edef.vx) (1 / 120)).1
          vx := (rk4step (fun s => (s.2, accel1d Edef s.1 s.2))
                  (Edef.x, Edef.vx) (1 / 120)).2
          t := Edef.t + 1 / 120 } :=
  ⟨by show (0 : ℝ) < 1; norm_num,
   step_1d_is_rk4 Edef (1 / 120) (by show (0 : ℝ) < 1; norm_num)⟩

/-- C5: at every force-evaluation point, the Vector-mode `forces` closure
returns exactly the spec's accelerations: fallback unit vector `(0,1)` when
`r < 1e-9`, else `(x/r, y/r)`; `F_spring = -k·(r-L0)`; damping from the
radial velocity only; gravity added to the y-acceleration unscaled. -/
theorem forces_follow_spec (e : SpringEngine) (x y vx vy : ℝ) (hm : e.m ≠ 0) :
    forces e x y vx vy = some (specForces e x y vx vy) :=
  forces_eq hm x y vx vy

theorem forces_follow_spec_witness :
    Edef.m ≠ 0 ∧ forces Edef 3 4 1 2 = some (specForces Edef 3 4 1 2) :=
  ⟨by show (1 : ℝ) ≠ 0; norm_num,
   forces_follow_spec Edef 3 4 1 2 (by show (1 : ℝ) ≠ 0; norm_num)⟩

/-- C7: in Vector mode, a step from the exact origin `(x, y) = (0, 0)` with
any finite velocity is defined (no division by zero reaches the result; in
the real-number idealisation this is the "finite, non-NaN" guarantee) and
deterministic. -/
theorem degenerate_origin_step (e : SpringEngine) (dt : ℝ) (hm : 0 < e.m)
    (_hmode : e.mode ≠ "1D") (_hx : e.x = 0) (_hy : e.y = 0) :
    ∃ s, step e dt = some s ∧ ∀ s₂, step e dt = some s₂ → s₂ = s := by
  refine ⟨stepVal e dt, step_eq hm.ne' dt, ?_⟩
  intro s₂ h₂
  rw [step_eq hm.ne' dt] at h₂
  exact (Option.some.injEq _ _ ▸ h₂).symm

theorem degenerate_origin_step_witness :
    (0 : ℝ) < ({ mode := "VECTOR", x := 0, vx := 3, vy := -2 } : SpringEngine).m ∧
      ({ mode := "VECTOR", x := 0, vx := 3, vy := -2 } : SpringEngine).mode ≠ "1D" ∧
      ({ mode := "VECTOR", x := 0, vx := 3, vy := -2 } : SpringEngine).x = 0 ∧
      ({ mode := "VECTOR", x := 0, vx := 3, vy := -2 } : SpringEngine).y = 0 ∧
      ∃ s, step { mode := "VECTOR", x := 0, vx := 3, vy := -2 } 0.01 = some s ∧
        ∀ s₂, step { mode := "VECTOR", x := 0, vx := 3, vy := -2 } 0.01 = some s₂ → s₂ = s :=
  ⟨by show (0 : ℝ) < 1; norm_num, by decide, rfl, rfl,
   degenerate_origin_step _ 0.01 (by show (0 : ℝ) < 1; norm_num) (by decide) rfl rfl⟩

/-- C8: with `m > 0`, a step with `dt = 0` is a no-op in both modes: it
returns the state unchanged in every field (`x`, `y`, `vx`, `vy` and `t`). -/
theorem step_zero_dt (e : SpringEngine) (hm : 0 < e.m) :
    step e 0 = some e := by
  rw [step_eq hm.ne']
  refine congrArg some ?_
  unfold stepVal step1dVal step2dVal
  split <;> (ext <;> simp)

theorem step_zero_dt_witness :
    (0 : ℝ) < Edef.m ∧ step Edef 0 = some Edef :=
  ⟨by show (0 : ℝ) < 1; norm_num,
   step_zero_dt Edef (by show (0 : ℝ) < 1; norm_num)⟩

/-- C9: with `m > 0`, every `step` call is defined and advances `t` by
exactly `dt` (in both modes), and `N` iterated calls advance `t` from `t₀`
to `t₀ + N·dt` — so from `t₀ = 0` the elapsed time is `N·dt`. -/
theorem step_time_advance (e : SpringEngine) (dt : ℝ) (N : ℕ) (hm : 0 < e.m) :
    (∃ s, step e dt = some s ∧ s.t = e.t + dt) ∧
      (∀ s, stepN e dt N = some s → s.t = e.t + N * dt) :=
  ⟨⟨stepVal e dt, step_eq hm.ne' dt, stepVal_t e dt⟩,
   fun s hs => stepN_t dt N e hm s hs⟩

theorem step_time_advance_witness :
    (0 : ℝ) < Edef.m ∧
      ((∃ s, step Edef (1 / 120) = some s ∧ s.t = Edef.t + 1 / 120) ∧
        (∀ s, stepN Edef (1 / 120) 3 = some s → s.t = Edef.t + 3 * (1 / 120))) := by
  refine ⟨by show (0 : ℝ) < 1; norm_num, ?_⟩
  have h := step_time_advance Edef (1 / 120) 3 (by show (0 : ℝ) < 1; norm_num)
  simpa using h

/-- C10: for any mode string other than `"1D"` — recognized (`"VECTOR"`) or
not — `step` runs the Vector integrator `_step_2d`, and
`get_analytical_solution` behaves exactly as with mode `"VECTOR"` (radial
initial-condition extraction); the dispatch raises no error. -/
theorem mode_fallback (e : SpringEngine) (dt : ℝ) (h : e.mode ≠ "1D") :
    step e dt = step_2d e dt ∧
      get_analytical_solution e =
        get_analytical_solution { e with mode := "VECTOR" } := by
  constructor
  · unfold step
    simp [h]
  · unfold get_analytical_solution
    have hic : initialConditions { e with mode := "VECTOR" } = initialConditions e := by
      unfold initialConditions
      simp [h]
    rw [hic]

/-- C1 counterexample: at `m = 1`, `k = 1`, `c = 2 - 1e-9` the damping ratio
`ζ = (2 - 1e-9)/(2·sqrt(1·1)) = 1 - 5e-10` satisfies `|ζ - 1| < 1e-9`, yet
`get_analytical_solution` classifies the regime as underdamped, because the
`ζ < 1` branch is checked before the critical band. -/
theorem near_critical_is_underdamped :
    |(2 - 1e-9 : ℝ) / (2 * Real.sqrt ((1 : ℝ) * 1)) - 1| < 1e-9 ∧
      (get_analytical_solution { m := 1, k := 1, c := 2 - 1e-9 }).map Desc.tag =
        some ("underdamped") := by
  have hs1 : Real.sqrt ((1 : ℝ) * 1) = 1 := by rw [mul_one, Real.sqrt_one]
  constructor
  · rw [hs1, abs_lt]
    constructor <;> norm_num
  · refine classify_underdamped _ ?_ ?_ ?_ ?_
    · show (0 : ℝ) < 1
      norm_num
    · show (0 : ℝ) < 1
      norm_num
    · show (0 : ℝ) ≤ 2 - 1e-9
      norm_num
    · show (2 - 1e-9 : ℝ) / (2 * Real.sqrt ((1 : ℝ) * 1)) < 1
      rw [hs1]
      norm_num

/-- C1 (amended): the critical band takes precedence over the overdamped
branch only: when `ζ ≥ 1` and `|ζ - 1| < 1e-9`, classification is critical
(not overdamped, not underdamped); for `ζ < 1` — even within `1e-9` of 1 —
classification is underdamped. -/
theorem critical_band_classification (e : SpringEngine) (hm : 0 < e.m)
    (hk : 0 < e.k) (hc : 0 ≤ e.c)
    (h1 : 1 ≤ e.c / (2 * Real.sqrt (e.k * e.m)))
    (h2 : |e.c / (2 * Real.sqrt (e.k * e.m)) - 1| < 1e-9) :
    (get_analytical_solution e).map Desc.tag = some ("critical") := by
  rw [analytical_eq hm hk hc]
  unfold specAnalytical
  rw [Option.map_some', specRegime_tag_critical (not_lt.mpr h1) h2]

theorem critical_band_classification_witness :
    (1 : ℝ) ≤ 4 / (2 * Real.sqrt ((4 : ℝ) * 1)) ∧
      |(4 : ℝ) / (2 * Real.sqrt ((4 : ℝ) * 1)) - 1| < 1e-9 ∧
      (get_analytical_solution { m := 1, k := 4, c := 4 }).map Desc.tag =
        some ("critical") := by
  have hs4 : Real.sqrt ((4 : ℝ) * 1) = 2 := by
    rw [mul_one, show (4 : ℝ) = 2 ^ 2 by norm_num]
    exact Real.sqrt_sq (by norm_num)
  refine ⟨?_, ?_, critical_band_classification _ ?_ ?_ ?_ ?_ ?_⟩
  · rw [hs4]
    norm_num
  · rw [hs4]
    norm_num
  · show (0 : ℝ) < 1
    norm_num
  · show (0 : ℝ) < 4
    norm_num
  · show (0 : ℝ) ≤ 4
    norm_num
  · show (1 : ℝ) ≤ 4 / (2 * Real.sqrt ((4 : ℝ) * 1))
    rw [hs4]
    norm_num
  · show |(4 : ℝ) / (2 * Real.sqrt ((4 : ℝ) * 1)) - 1| < 1e-9
    rw [hs4]
    norm_num

/-- C2 counterexample: at the "valid" parameter set `m = 1`, `k = 0`,
`c = 1` (the spec admits `k ≥ 0`), the damping-ratio computation divides by
`2·sqrt(0·1) = 0`, so `get_analytical_solution` raises (here: `none`). -/
theorem analytical_zero_stiffness_raises :
    get_analytical_solution { m := 1, k := 0, c := 1 } = none := by
  unfold get_analytical_solution
  simp [pydiv, pysqrt]

/-- C2 (amended): for `m > 0`, `k > 0` (strict: `k = 0` divides by zero)
and `c ≥ 0`, `get_analytical_solution` completes and returns a descriptor;
no division by zero is reachable. -/
theorem analytical_total (e : SpringEngine) (hm : 0 < e.m) (hk : 0 < e.k)
    (hc : 0 ≤ e.c) :
    ∃ d, get_analytical_solution e = some d :=
  ⟨specAnalytical e, analytical_eq hm hk hc⟩

theorem analytical_total_witness :
    (0 : ℝ) < Edef.m ∧ (0 : ℝ) < Edef.k ∧ (0 : ℝ) ≤ Edef.c ∧
      ∃ d, get_analytical_solution Edef = some d :=
  ⟨by show (0 : ℝ) < 1; norm_num, by show (0 : ℝ) < 10; norm_num,
   by show (0 : ℝ) ≤ 0.5; norm_num,
   analytical_total Edef (by show (0 : ℝ) < 1; norm_num)
     (by show (0 : ℝ) < 10; norm_num) (by show (0 : ℝ) ≤ 0.5; norm_num)⟩

/-- C6: for `m > 0`, `k > 0`, `c ≥ 0`, `get_analytical_solution` returns
exactly the spec's coefficients per regime (from `ω_n = sqrt(k/m)`,
`ζ = c/(2·sqrt(k·m))` and the mode-dependent `(x0, v0)`); in the overdamped
case the two roots are distinct and negative; and whenever
`ζ - 1 ≥ 1e-9` (e.g. `m=1, k=4, c=10`, `ζ = 2.5`) the reported case is
overdamped. -/
theorem analytical_coefficients (e : SpringEngine) (hm : 0 < e.m)
    (hk : 0 < e.k) (hc : 0 ≤ e.c) :
    get_analytical_solution e = some (specAnalytical e) ∧
      (∀ wn z r1 r2 A B, specAnalytical e = .overdamped wn z r1 r2 A B →
        r1 ≠ r2 ∧ r1 < 0 ∧ r2 < 0) ∧
      (1e-9 ≤ e.c / (2 * Real.sqrt (e.k * e.m)) - 1 →
        (get_analytical_solution e).map Desc.tag = some ("overdamped")) := by
  have hwn : 0 < Real.sqrt (e.k / e.m) := Real.sqrt_pos.mpr (div_pos hk hm)
  refine ⟨analytical_eq hm hk hc, ?_, ?_⟩
  · intro wn z r1 r2 A B h
    exact specRegime_overdamped_roots hwn (specInit e).1 (specInit e).2
      wn z r1 r2 A B h
  · intro hz
    have heps : (0 : ℝ) < 1e-9 := by norm_num
    rw [analytical_eq hm hk hc]
    unfold specAnalytical
    rw [Option.map_some',
      specRegime_tag_overdamped (not_lt.mpr (by linarith))
        (not_lt.mpr (by rw [abs_of_nonneg (by linarith)]; exact hz))]

theorem analytical_coefficients_witness :
    (0 : ℝ) < ({ m := 1, k := 4, c := 10 } : SpringEngine).m ∧
      (0 : ℝ) < ({ m := 1, k := 4, c := 10 } : SpringEngine).k ∧
      (0 : ℝ) ≤ ({ m := 1, k := 4, c := 10 } : SpringEngine).c ∧
      (get_analytical_solution { m := 1, k := 4, c := 10 } =
          some (specAnalytical { m := 1, k := 4, c := 10 }) ∧
        (∀ wn z r1 r2 A B,
          specAnalytical { m := 1, k := 4, c := 10 } =
            .overdamped wn z r1 r2 A B → r1 ≠ r2 ∧ r1 < 0 ∧ r2 < 0) ∧
        (1e-9 ≤ ({ m := 1, k := 4, c := 10 } : SpringEngine).c /
            (2 * Real.sqrt (({ m := 1, k := 4, c := 10 } : SpringEngine).k *
              ({ m := 1, k := 4, c := 10 } : SpringEngine).m)) - 1 →
          (get_analytical_solution { m := 1, k := 4, c := 10 }).map Desc.tag =
            some ("overdamped"))) ∧
      (get_analytical_solution { m := 1, k := 4, c := 10 }).map Desc.tag =
        some ("overdamped") := by
  have hs4 : Real.sqrt ((4 : ℝ) * 1) = 2 := by
    rw [mul_one, show (4 : ℝ) = 2 ^ 2 by norm_num]
    exact Real.sqrt_sq (by norm_num)
  have hm : (0 : ℝ) < ({ m := 1, k := 4, c := 10 } : SpringEngine).m := by
    show (0 : ℝ) < 1
    norm_num
  have hk : (0 : ℝ) < ({ m := 1, k := 4, c := 10 } : SpringEngine).k := by
    show (0 : ℝ) < 4
    norm_num
  have hc : (0 : ℝ) ≤ ({ m := 1, k := 4, c := 10 } : SpringEngine).c := by
    show (0 : ℝ) ≤ 10
    norm_num
  have hover : (1e-9 : ℝ) ≤ ({ m := 1, k := 4, c := 10 } : SpringEngine).c /
      (2 * Real.sqrt (({ m := 1, k := 4, c := 10 } : SpringEngine).k *
        ({ m := 1, k := 4, c := 10 } : SpringEngine).m)) - 1 := by
    show (1e-9 : ℝ) ≤ 10 / (2 * Real.sqrt ((4 : ℝ) * 1)) - 1
    rw [hs4]
    norm_num
  exact ⟨hm, hk, hc, analytical_coefficients _ hm hk hc,
    (analytical_coefficients _ hm hk hc).2.2 hover⟩

theorem mode_fallback_witness :
    ({ mode := "SOMETHING" } : SpringEngine).mode ≠ "1D" ∧
      (step { mode := "SOMETHING" } 0.25 = step_2d { mode := "SOMETHING" } 0.25 ∧
        get_analytical_solution ({ mode := "SOMETHING" } : SpringEngine) =
          get_analytical_solution { ({ mode := "SOMETHING" } : SpringEngine) with mode := "VECTOR" }) :=
  ⟨by decide, mode_fallback { mode := "SOMETHING" } 0.25 (by decide)⟩

end

end SpringLab
